import Mathlib

/-!
Verification development for the Jobify.AI backend.

The repository has two parallel pipelines sharing one relational schema:

* `src/Main/main.py` — a standalone batch pipeline (`process_messages`, `main`)
  with its own SQLAlchemy models and its own Pinecone access
  (`search_pinecone`, `pinecone_upsert`, namespaces `"applications"`,
  `"interview"`, `"rejection"`, `"offer"`);
* the Flask app (`src/app/...`) — `email_parser.process_user_emails` /
  `process_email`, the service layer `db_service.py`, and the lexical
  matcher `pinecone_service.similarity` / `find_matching_application`.

This file gives a shallow embedding of the parts of both pipelines that the
claims are about.  Python text is modelled as `List Char` (so that every
operation is structural and evaluable).  The similarity scores appear twice:
once over exact rationals (`similarity`, `combinedScore`), which is faithful
everywhere except on the knife edge of the `> 0.7` match test, and once over
an exact model of IEEE-754 binary64 arithmetic (`F64`, `similarity64`,
`combinedScore64`), which reproduces bit-for-bit the doubles CPython
computes and settles the threshold-boundary behaviour.  External
collaborators (the embedding service, the vector-store ranking, the
`dateutil` date parser, the company-name regex) are modelled as explicit
oracle parameters; everything else is translated from the source.
-/

set_option maxRecDepth 8192

namespace Jobify

/-- Python text, as a sequence of characters. -/
abbrev PyStr := List Char

/-! ## Python string primitives (as used by `pinecone_service.similarity`) -/

/-- Python `str.lower()` restricted to the character-wise case mapping
(`Char.toLower`); the source only ever lowercases company/role text. -/
def pyLower (s : PyStr) : PyStr := s.map Char.toLower

/-- Python `a in b` on strings: contiguous-substring containment.  In Python
the empty string is contained in every string, which this recursion also
satisfies (`List.isPrefixOf [] _ = true`). -/
def pySubstrB (a : PyStr) : PyStr → Bool
  | [] => a.isEmpty
  | b :: bs => a.isPrefixOf (b :: bs) || pySubstrB a bs

/-- One splitting pass of Python `str.split()`: cut at every whitespace
character (empty pieces are dropped afterwards by `pyWords`). -/
def splitWs : PyStr → List PyStr
  | [] => [[]]
  | c :: cs =>
    if c.isWhitespace then [] :: splitWs cs
    else
      match splitWs cs with
      | [] => [[c]]
      | w :: ws => (c :: w) :: ws

/-- Python `str.split()` with no argument: split on whitespace and drop the
empty pieces (so runs of whitespace and leading/trailing whitespace produce
no words). -/
def pyWords (s : PyStr) : List PyStr :=
  (splitWs s).filter (fun w => w ≠ [])

/-- `similarity(str1, str2)` from `src/app/services/pinecone_service.py`
(lines 10–38):

```python
str1 = str1.lower(); str2 = str2.lower()
if str1 in str2 or str2 in str1: return 0.9
words1 = set(str1.split()); words2 = set(str2.split())
common_words = words1.intersection(words2)
if not words1 or not words2: return 0.0
return len(common_words) / max(1, len(words1.union(words2)))
```
-/
def similarity (str1 str2 : PyStr) : ℚ :=
  let s1 := pyLower str1
  let s2 := pyLower str2
  if pySubstrB s1 s2 || pySubstrB s2 s1 then 9/10
  else
    let words1 := (pyWords s1).toFinset
    let words2 := (pyWords s2).toFinset
    if words1 = ∅ ∨ words2 = ∅ then 0
    else ((words1 ∩ words2).card : ℚ) / (max 1 (words1 ∪ words2).card : ℕ)

/-- The Jaccard similarity of the whitespace-tokenized word sets of two
(lowercased) strings, written as the spec describes it: `|∩| / |∪|`, with the
usual convention that it is `0` when both word sets are empty. -/
def specJaccard (str1 str2 : PyStr) : ℚ :=
  let words1 := (pyWords (pyLower str1)).toFinset
  let words2 := (pyWords (pyLower str2)).toFinset
  if (words1 ∪ words2) = ∅ then 0
  else ((words1 ∩ words2).card : ℚ) / ((words1 ∪ words2).card : ℕ)

lemma similarity_substring {str1 str2 : PyStr}
    (h : (pySubstrB (pyLower str1) (pyLower str2)
          || pySubstrB (pyLower str2) (pyLower str1)) = true) :
    similarity str1 str2 = 9/10 := by
  unfold similarity
  simp only [h, if_true]

lemma similarity_eq_specJaccard {str1 str2 : PyStr}
    (h : (pySubstrB (pyLower str1) (pyLower str2)
          || pySubstrB (pyLower str2) (pyLower str1)) = false) :
    similarity str1 str2 = specJaccard str1 str2 := by
  unfold similarity specJaccard
  simp only [h, Bool.false_eq_true, if_false]
  set w1 := (pyWords (pyLower str1)).toFinset with hw1
  set w2 := (pyWords (pyLower str2)).toFinset with hw2
  by_cases h1 : w1 = ∅
  · rw [if_pos (Or.inl h1), h1]
    simp [Finset.empty_inter]
  · by_cases h2 : w2 = ∅
    · rw [if_pos (Or.inr h2), h2]
      simp [Finset.inter_empty]
    · have hu : w1 ∪ w2 ≠ ∅ := by
        intro hu
        exact h1 (Finset.union_eq_empty.mp hu).1
      have hcard : 0 < (w1 ∪ w2).card :=
        Finset.card_pos.mpr (Finset.nonempty_iff_ne_empty.mpr hu)
      have hmax : max 1 (w1 ∪ w2).card = (w1 ∪ w2).card := by
        omega
      rw [if_neg (by tauto), if_neg hu, hmax]

/-- The empty string is a Python substring of every string. -/
lemma pySubstrB_nil (s : PyStr) : pySubstrB [] s = true := by
  induction s with
  | nil => rfl
  | cons c cs ih =>
    unfold pySubstrB
    simp [List.isPrefixOf]

/-! ## `find_matching_application` (src/app/services/pinecone_service.py, lines 258–334)

The function embeds the query text, queries Pinecone (`top_k=5`, filter
`{'type': 'application'}`) and then re-scores the returned candidates
lexically.  The embedding call and the vector query are external
collaborators; we model the function from the candidate list the query
returned.  (On embedding failure or an empty result the source returns
`None`, matching the empty-list case here.) -/

/-- One Pinecone match as consumed by `find_matching_application`:
`metadata.get('application_id')` (a stringified integer or absent; `int()` is
applied to the winner), `metadata.get('company_name', '')`,
`metadata.get('position_title', '')`, and the raw vector score (read into
`match_score` by the source but never used afterwards). -/
structure PMatch where
  application_id : Option ℕ
  company_name : PyStr
  position_title : PyStr
  score : ℚ
deriving DecidableEq

/-- The per-candidate combined score of `find_matching_application`
(lines 306–316):

```python
match_company = metadata.get('company_name', '').lower()
match_position = metadata.get('position_title', '').lower()
company_sim = similarity(company_name.lower(), match_company)
position_sim = similarity(position_title.lower(), match_position)
combined_score = (company_sim * 0.6) + (position_sim * 0.4)
```

This version carries the arithmetic in exact rationals; CPython computes in
binary64, which agrees except possibly when the exact score sits on the
`0.7` threshold itself — `combinedScore64` below is the bit-faithful
counterpart used for that boundary. -/
def combinedScore (company_name position_title : PyStr) (m : PMatch) : ℚ :=
  let match_company := pyLower m.company_name
  let match_position := pyLower m.position_title
  let company_sim := similarity (pyLower company_name) match_company
  let position_sim := similarity (pyLower position_title) match_position
  company_sim * (6/10) + position_sim * (4/10)

/-- The best-candidate scan of `find_matching_application` (lines 301–322),
carrying the `(best_score, best_match)` accumulator initialised to
`(0, None)`:

```python
if combined_score > best_score and combined_score > 0.7:
    best_score = combined_score
    best_match = match_id
```

Both comparisons are double comparisons in the source; this exact-rational
version agrees with them away from the `0.7` knife edge (no claim below
applies its threshold test through it at an exact score of `0.7`), and
`bestMatchFold64` is the bit-faithful counterpart for the boundary. -/
def bestMatchFold (company_name position_title : PyStr) :
    List PMatch → ℚ × Option ℕ → ℚ × Option ℕ
  | [], acc => acc
  | m :: ms, (best_score, best_match) =>
    let combined := combinedScore company_name position_title m
    if combined > best_score ∧ combined > 7/10 then
      bestMatchFold company_name position_title ms (combined, m.application_id)
    else
      bestMatchFold company_name position_title ms (best_score, best_match)

/-- `find_matching_application`, from the candidate list returned by the
vector query.  The source ends with `return int(best_match) if best_match
else None`; application ids originate from an autoincrement column starting
at 1, so Python truthiness of the id coincides with `Option.isSome` here and
we return the accumulator's second component directly. -/
def find_matching_application (company_name position_title : PyStr)
    (candidates : List PMatch) : Option ℕ :=
  (bestMatchFold company_name position_title candidates (0, none)).2

lemma bestMatchFold_spec (c r : PyStr) :
    ∀ (ms : List PMatch) (bs : ℚ) (bm : Option ℕ),
      bs ≤ (bestMatchFold c r ms (bs, bm)).1 ∧
      (∀ m ∈ ms, 7/10 < combinedScore c r m →
        combinedScore c r m ≤ (bestMatchFold c r ms (bs, bm)).1) ∧
      (((bestMatchFold c r ms (bs, bm)).1 = bs ∧
        (bestMatchFold c r ms (bs, bm)).2 = bm) ∨
       ∃ m ∈ ms, (bestMatchFold c r ms (bs, bm)).2 = m.application_id ∧
         (bestMatchFold c r ms (bs, bm)).1 = combinedScore c r m ∧
         7/10 < combinedScore c r m) := by
  intro ms
  induction ms with
  | nil =>
    intro bs bm
    refine ⟨le_refl _, ?_, Or.inl ⟨rfl, rfl⟩⟩
    intro m hm
    exact absurd hm (List.not_mem_nil m)
  | cons m ms ih =>
    intro bs bm
    by_cases hcond : combinedScore c r m > bs ∧ combinedScore c r m > 7/10
    · have hfold : bestMatchFold c r (m :: ms) (bs, bm) =
          bestMatchFold c r ms (combinedScore c r m, m.application_id) := by
        simp only [bestMatchFold, if_pos hcond]
      obtain ⟨ih1, ih2, ih3⟩ := ih (combinedScore c r m) m.application_id
      rw [hfold]
      refine ⟨le_trans (le_of_lt hcond.1) ih1, ?_, ?_⟩
      · intro m' hm' hgt
        rcases List.mem_cons.mp hm' with h | h
        · subst h; exact ih1
        · exact ih2 m' h hgt
      · rcases ih3 with ⟨h1, h2⟩ | ⟨m', hm', h1, h2, h3⟩
        · exact Or.inr ⟨m, List.mem_cons_self m ms, h2, h1, hcond.2⟩
        · exact Or.inr ⟨m', List.mem_cons_of_mem m hm', h1, h2, h3⟩
    · have hfold : bestMatchFold c r (m :: ms) (bs, bm) =
          bestMatchFold c r ms (bs, bm) := by
        simp only [bestMatchFold, if_neg hcond]
      obtain ⟨ih1, ih2, ih3⟩ := ih bs bm
      rw [hfold]
      refine ⟨ih1, ?_, ?_⟩
      · intro m' hm' hgt
        rcases List.mem_cons.mp hm' with h | h
        · subst h
          have hle : combinedScore c r m' ≤ bs := by
            by_contra hbs
            exact hcond ⟨lt_of_not_le hbs, hgt⟩
          exact le_trans hle ih1
        · exact ih2 m' h hgt
      · rcases ih3 with ⟨h1, h2⟩ | ⟨m', hm', h1, h2, h3⟩
        · exact Or.inl ⟨h1, h2⟩
        · exact Or.inr ⟨m', List.mem_cons_of_mem m hm', h1, h2, h3⟩

/-! ## Exact binary64 arithmetic for the threshold boundary

CPython evaluates `similarity` and the combined score in IEEE-754 binary64
("double") arithmetic, and `combined_score > 0.7` is a double comparison.
Away from the threshold the exact-rational model above is faithful, but at
an exact combined score of `0.70` the rounding of the two products and the
sum decides the comparison: `(0.9*0.6)+(0.4*0.4)` evaluates to
`0.7000000000000001 > 0.7` while `(0.5*0.6)+(1.0*0.4)` evaluates to the
double `0.7` itself.  `F64` models a non-negative binary64 value exactly:
zero, or a normalized significand `m` with `2^52 ≤ m < 2^53` and value
`m·2^(e−52)` (so `2^e ≤ value < 2^(e+1)`).  Every operation rounds the
exact result to nearest, ties to even, as IEEE requires of `*`, `+` and
`/`; the normal-range model suffices because every quantity the similarity
computation produces lies well inside it. -/

/-- A non-negative binary64 value: `m = 0` is zero, otherwise `m` is the
53-bit significand and the value is `m·2^(e−52)`. -/
structure F64 where
  m : ℕ
  e : ℤ
deriving DecidableEq

/-- The double `+0.0` (also the numeric value of Python's integer `0`, the
initial `best_score`). -/
def F64.zero : F64 := ⟨0, 0⟩

/-- Fuelled binary length: the fuel only bounds the recursion and `n` itself
always suffices. -/
def bitlenAux : ℕ → ℕ → ℕ
  | 0, _ => 0
  | fuel+1, n => if n = 0 then 0 else bitlenAux fuel (n / 2) + 1

/-- The number of binary digits of `n`: `bitlen 0 = 0` and
`2^(bitlen n − 1) ≤ n < 2^(bitlen n)` for positive `n`. -/
def bitlen (n : ℕ) : ℕ := bitlenAux n n

/-- Round `p / 2^k` to the nearest integer, ties to even. -/
def shRound (p k : ℕ) : ℕ :=
  if k = 0 then p
  else
    let q := p / 2^k
    let r := p % 2^k
    let half := 2^(k-1)
    if r < half then q
    else if half < r then q + 1
    else if q % 2 = 0 then q else q + 1

/-- Normalize the exact value `p·2^f` (`p ≥ 1`) to a binary64, rounding to
nearest-even when more than 53 significant bits are present (a round-up to
`2^53` carries into the exponent). -/
def normF64 (p : ℕ) (f : ℤ) : F64 :=
  let b := bitlen p
  if b ≤ 53 then ⟨p * 2^(53 - b), f + b - 1⟩
  else
    let m0 := shRound p (b - 53)
    if m0 = 2^53 then ⟨2^52, f + b⟩ else ⟨m0, f + b - 1⟩

/-- The correctly-rounded binary64 value of `num / den` (`den ≥ 1`).  Both a
Python float literal such as `0.9` and Python 3's true division
`len(common_words) / max(1, len(...))` produce exactly this value. -/
def F64.ofNatQ (num den : ℕ) : F64 :=
  if num = 0 then F64.zero
  else
    let c : ℤ := (bitlen num : ℤ) - (bitlen den : ℤ)
    let k := if den * 2^c.toNat ≤ num * 2^(-c).toNat then c else c - 1
    let s := 52 - k
    let n := num * 2^s.toNat
    let d := den * 2^(-s).toNat
    let q := n / d
    let r := n % d
    let m0 :=
      if 2*r < d then q
      else if d < 2*r then q + 1
      else if q % 2 = 0 then q else q + 1
    if m0 = 2^53 then ⟨2^52, k + 1⟩ else ⟨m0, k⟩

/-- Binary64 multiplication of non-negative doubles: the exact product,
rounded once. -/
def F64.mul (a b : F64) : F64 :=
  if a.m = 0 || b.m = 0 then F64.zero
  else normF64 (a.m * b.m) (a.e + b.e - 104)

/-- Binary64 addition of non-negative doubles: the exact sum, rounded
once. -/
def F64.add (a b : F64) : F64 :=
  if a.m = 0 then b
  else if b.m = 0 then a
  else
    let fa := a.e - 52
    let fb := b.e - 52
    let g := min fa fb
    normF64 (a.m * 2^(fa - g).toNat + b.m * 2^(fb - g).toNat) g

/-- The strict `<` comparison on non-negative doubles. -/
def F64.blt (a b : F64) : Bool :=
  if a.m = 0 then decide (0 < b.m)
  else if b.m = 0 then false
  else
    let g := min a.e b.e
    decide (a.m * 2^((a.e - g)).toNat < b.m * 2^((b.e - g)).toNat)

/-- The rational value of a modelled double (documentation of the
encoding). -/
def F64.toRat (a : F64) : ℚ := (a.m : ℚ) * (2:ℚ)^(a.e - 52)

/-- `similarity` with its arithmetic carried out in binary64 exactly as
CPython evaluates it: `0.9` and `0.0` are float literals and the word-set
branch performs one correctly-rounded true division. -/
def similarity64 (str1 str2 : PyStr) : F64 :=
  let s1 := pyLower str1
  let s2 := pyLower str2
  if pySubstrB s1 s2 || pySubstrB s2 s1 then F64.ofNatQ 9 10
  else
    let words1 := (pyWords s1).toFinset
    let words2 := (pyWords s2).toFinset
    if words1 = ∅ ∨ words2 = ∅ then F64.zero
    else F64.ofNatQ (words1 ∩ words2).card (max 1 (words1 ∪ words2).card)

/-- The combined score `(company_sim * 0.6) + (position_sim * 0.4)` in
binary64: two rounded products, then one rounded sum — CPython's exact
evaluation order. -/
def combinedScore64 (company_name position_title : PyStr) (m : PMatch) : F64 :=
  let company_sim := similarity64 (pyLower company_name) (pyLower m.company_name)
  let position_sim := similarity64 (pyLower position_title) (pyLower m.position_title)
  F64.add (F64.mul company_sim (F64.ofNatQ 6 10)) (F64.mul position_sim (F64.ofNatQ 4 10))

/-- The best-candidate scan with its two double comparisons (`best_score`
starts as Python's integer `0`, numerically equal to `+0.0`). -/
def bestMatchFold64 (company_name position_title : PyStr) :
    List PMatch → F64 × Option ℕ → F64 × Option ℕ
  | [], acc => acc
  | m :: ms, (best_score, best_match) =>
    let combined := combinedScore64 company_name position_title m
    if F64.blt best_score combined && F64.blt (F64.ofNatQ 7 10) combined then
      bestMatchFold64 company_name position_title ms (combined, m.application_id)
    else
      bestMatchFold64 company_name position_title ms (best_score, best_match)

/-- `find_matching_application` over the binary64 model of its
arithmetic. -/
def find_matching_application64 (company_name position_title : PyStr)
    (candidates : List PMatch) : Option ℕ :=
  (bestMatchFold64 company_name position_title candidates (F64.zero, none)).2

/-- A double strictly above the threshold `0.7` is non-zero, hence also
strictly above the initial `best_score` of `0`. -/
lemma blt_zero_of_blt_seventenths {x : F64}
    (h : F64.blt (F64.ofNatQ 7 10) x = true) : F64.blt F64.zero x = true := by
  by_cases hx : x.m = 0
  · exfalso
    unfold F64.blt at h
    rw [if_neg (show ¬((F64.ofNatQ 7 10).m = 0) from by decide), if_pos hx] at h
    exact Bool.false_ne_true h
  · unfold F64.blt
    rw [if_pos (show F64.zero.m = 0 from rfl)]
    exact decide_eq_true (Nat.pos_of_ne_zero hx)

/-! ## Concrete candidate evaluations used by C1 and C8 -/

/-- A stored candidate whose combined lexical score against the event
`(company="acme", role="a b c")` is exactly `0.7`: company `"acme inc"`
contains `"acme"` (similarity `0.9`), role word sets `{a,b,c}` and
`{a,b,d,e}` share two of five words (Jaccard `0.4`), so the combination is
`0.9·0.6 + 0.4·0.4 = 0.7` exactly — but in binary64 it evaluates to
`0.7000000000000001`, strictly above the double `0.7`. -/
def boundaryMatch : PMatch :=
  ⟨some 1, "acme inc".toList, "a b d e".toList, 17/20⟩

/-- A stored candidate whose combined lexical score against the event
`(company="a b d", role="x y")` is also exactly `0.7`, from the other side
of the rounding: company word sets `{a,b,d}` and `{a,b,c}` share two of
four words (Jaccard `0.5`), the role strings `"x y"` and `"y x"` have equal
word sets and neither contains the other (Jaccard `1.0`), and in binary64
`(0.5*0.6)+(1.0*0.4)` evaluates to the double `0.7` itself, which fails the
strict `> 0.7` test. -/
def boundaryTieMatch : PMatch :=
  ⟨some 1, "b a c".toList, "y x".toList, 17/20⟩

lemma sim_acme_acmeinc :
    similarity "acme".toList "acme inc".toList = 9/10 :=
  similarity_substring (by decide)

lemma sim_abc_abde :
    similarity "a b c".toList "a b d e".toList = 2/5 := by
  rw [similarity_eq_specJaccard (by decide)]
  simp only [specJaccard]
  rw [if_neg (by decide),
    show ((pyWords (pyLower "a b c".toList)).toFinset
      ∩ (pyWords (pyLower "a b d e".toList)).toFinset).card = 2 from by decide,
    show ((pyWords (pyLower "a b c".toList)).toFinset
      ∪ (pyWords (pyLower "a b d e".toList)).toFinset).card = 5 from by decide]
  norm_num

lemma combined_boundary :
    combinedScore "acme".toList "a b c".toList boundaryMatch = 7/10 := by
  simp only [combinedScore, boundaryMatch]
  rw [show pyLower "acme".toList = "acme".toList from by decide,
    show pyLower "acme inc".toList = "acme inc".toList from by decide,
    show pyLower "a b c".toList = "a b c".toList from by decide,
    show pyLower "a b d e".toList = "a b d e".toList from by decide,
    sim_acme_acmeinc, sim_abc_abde]
  norm_num

/-- An identically-phrased candidate pair for the tie-break analysis: both
score `0.9·0.6 + 0.9·0.4 = 0.9` against the event
`(company="acme", role="swe")` but carry different application ids. -/
def tieMatchFirst : PMatch := ⟨some 5, "acme".toList, "swe".toList, 0⟩

/-- Second element of the tie pair, with the larger application id. -/
def tieMatchSecond : PMatch := ⟨some 9, "acme".toList, "swe".toList, 0⟩

lemma combined_tie_first :
    combinedScore "acme".toList "swe".toList tieMatchFirst = 9/10 := by
  simp only [combinedScore, tieMatchFirst]
  rw [show pyLower "acme".toList = "acme".toList from by decide,
    show pyLower "swe".toList = "swe".toList from by decide,
    similarity_substring (by decide), similarity_substring (by decide)]
  norm_num

lemma combined_tie_second :
    combinedScore "acme".toList "swe".toList tieMatchSecond =
      combinedScore "acme".toList "swe".toList tieMatchFirst := rfl

/-! ## Claims C1, C6, C8, C10 -/

/-- C1 (counterexample).  Not every pair whose combined similarity score
equals exactly `0.70` is matched.  Against the event
`(company "a b d", role "x y")`, the candidate `boundaryTieMatch` has exact
combined score `0.6·(1/2) + 0.4·1 = 0.70`, yet in the binary64 arithmetic
the source actually executes the score evaluates to the double `0.7`
itself, the strict test `combined_score > 0.7` (pinecone_service.py line
320) fails, and `find_matching_application` returns `None` — the caller
creates a new Application.  (Rounding can also go the other way: see the
amended claim's witness, where another exactly-`0.70` pair does match.) -/
theorem claim_C1_counterexample :
    combinedScore "a b d".toList "x y".toList boundaryTieMatch = 7/10 ∧
    find_matching_application64 "a b d".toList "x y".toList [boundaryTieMatch] = none := by
  constructor
  · have h1 : similarity "a b d".toList "b a c".toList = 1/2 := by
      rw [similarity_eq_specJaccard (by decide)]
      simp only [specJaccard]
      rw [if_neg (by decide),
        show ((pyWords (pyLower "a b d".toList)).toFinset
          ∩ (pyWords (pyLower "b a c".toList)).toFinset).card = 2 from by decide,
        show ((pyWords (pyLower "a b d".toList)).toFinset
          ∪ (pyWords (pyLower "b a c".toList)).toFinset).card = 4 from by decide]
      norm_num
    have h2 : similarity "x y".toList "y x".toList = 1 := by
      rw [similarity_eq_specJaccard (by decide)]
      simp only [specJaccard]
      rw [if_neg (by decide),
        show ((pyWords (pyLower "x y".toList)).toFinset
          ∩ (pyWords (pyLower "y x".toList)).toFinset).card = 2 from by decide,
        show ((pyWords (pyLower "x y".toList)).toFinset
          ∪ (pyWords (pyLower "y x".toList)).toFinset).card = 2 from by decide]
      norm_num
    simp only [combinedScore, boundaryTieMatch]
    rw [show pyLower "a b d".toList = "a b d".toList from by decide,
      show pyLower "b a c".toList = "b a c".toList from by decide,
      show pyLower "x y".toList = "x y".toList from by decide,
      show pyLower "y x".toList = "y x".toList from by decide,
      h1, h2]
    norm_num
  · decide

/-- C1 (amended).  `find_matching_application` accepts a single candidate
exactly when the binary64 value of
`0.6 * company_similarity + 0.4 * role_similarity`, as CPython computes it
(two rounded products, one rounded sum), is strictly greater than the
double `0.7`.  Pairs whose exact combined score is `0.70` are split by the
rounding: company `0.9` with role `0.4` evaluates to
`0.7000000000000001` and **matches**, while company `0.5` with role `1.0`
evaluates to the double `0.7` and does **not** (a new Application is
created); exact scores of `0.699` or below never match. -/
theorem claim_C1_amended (c r : PyStr) (m : PMatch) (a : ℕ)
    (hid : m.application_id = some a) :
    (F64.blt (F64.ofNatQ 7 10) (combinedScore64 c r m) = true →
      find_matching_application64 c r [m] = some a) ∧
    (F64.blt (F64.ofNatQ 7 10) (combinedScore64 c r m) = false →
      find_matching_application64 c r [m] = none) := by
  constructor
  · intro h
    have h0 := blt_zero_of_blt_seventenths h
    unfold find_matching_application64
    simp only [bestMatchFold64]
    rw [h0, h]
    simp [hid]
  · intro h
    unfold find_matching_application64
    simp only [bestMatchFold64]
    rw [h]
    simp

/-- Witness for C1 (amended): the exactly-`0.70` pair with sub-similarities
`(0.9, 0.4)` rounds up to `0.7000000000000001` in binary64 and is
matched. -/
theorem claim_C1_amended_witness :
    F64.blt (F64.ofNatQ 7 10)
      (combinedScore64 "acme".toList "a b c".toList boundaryMatch) = true ∧
    find_matching_application64 "acme".toList "a b c".toList [boundaryMatch] = some 1 ∧
    combinedScore "acme".toList "a b c".toList boundaryMatch = 7/10 :=
  ⟨by decide,
   (claim_C1_amended "acme".toList "a b c".toList boundaryMatch 1 rfl).1 (by decide),
   combined_boundary⟩

/-- C6 (confirmed).  For non-empty text fields the lexical sub-similarity is
`0.9` when either lowercased string contains the other, and otherwise the
Jaccard similarity of the whitespace-tokenized word sets; and the combined
score of `find_matching_application` weights company similarity by `0.6`
and role similarity by `0.4`. -/
theorem claim_C6_lexical_rescoring (s1 s2 c r : PyStr) (m : PMatch)
    (_h1 : s1 ≠ []) (_h2 : s2 ≠ []) :
    similarity s1 s2 =
      (if pySubstrB (pyLower s1) (pyLower s2) || pySubstrB (pyLower s2) (pyLower s1)
       then 9/10 else specJaccard s1 s2) ∧
    combinedScore c r m =
      (6/10) * similarity (pyLower c) (pyLower m.company_name) +
      (4/10) * similarity (pyLower r) (pyLower m.position_title) := by
  constructor
  · cases hb : (pySubstrB (pyLower s1) (pyLower s2)
        || pySubstrB (pyLower s2) (pyLower s1)) with
    | true => rw [if_pos rfl, similarity_substring hb]
    | false =>
      rw [similarity_eq_specJaccard hb]
      simp
  · simp only [combinedScore]
    ring

/-- Witness for C6 at concrete non-empty inputs. -/
theorem claim_C6_witness :
    (similarity "acme".toList "a b c".toList =
      (if pySubstrB (pyLower "acme".toList) (pyLower "a b c".toList)
          || pySubstrB (pyLower "a b c".toList) (pyLower "acme".toList)
       then 9/10 else specJaccard "acme".toList "a b c".toList)) ∧
    combinedScore "acme".toList "a b c".toList boundaryMatch =
      (6/10) * similarity (pyLower "acme".toList) (pyLower boundaryMatch.company_name) +
      (4/10) * similarity (pyLower "a b c".toList) (pyLower boundaryMatch.position_title) :=
  claim_C6_lexical_rescoring "acme".toList "a b c".toList
    "acme".toList "a b c".toList boundaryMatch (by decide) (by decide)

/-- C8 (counterexample).  Two candidates tie at combined score `0.9`; the ids
are `5` (earlier in the returned ranking) and `9` (larger, more recent).
The source updates `best_match` only on `combined_score > best_score`
(strict), so the **first-listed** candidate wins the tie and id `5` is
returned, not the larger id `9` the claim requires. -/
theorem claim_C8_counterexample :
    find_matching_application "acme".toList "swe".toList
      [tieMatchFirst, tieMatchSecond] = some 5 ∧
    combinedScore "acme".toList "swe".toList tieMatchFirst =
      combinedScore "acme".toList "swe".toList tieMatchSecond ∧
    tieMatchFirst.application_id = some 5 ∧
    tieMatchSecond.application_id = some 9 := by
  refine ⟨?_, combined_tie_second.symm, rfl, rfl⟩
  unfold find_matching_application
  simp only [bestMatchFold, combined_tie_first, combined_tie_second]
  rw [if_pos (by norm_num), if_neg (by norm_num)]
  rfl

/-- C8 (amended).  Among candidates clearing the (strict) `0.7` threshold,
`find_matching_application` returns the candidate with the highest combined
score; a tie is broken by **position in the returned candidate list** (the
earlier candidate wins), not by the larger `application_id`. -/
theorem claim_C8_amended :
    (∀ (c r : PyStr) (ms : List PMatch) (a : ℕ),
      find_matching_application c r ms = some a →
      ∃ m ∈ ms, m.application_id = some a ∧ 7/10 < combinedScore c r m ∧
        ∀ m' ∈ ms, combinedScore c r m' ≤ combinedScore c r m) ∧
    (∀ (c r : PyStr) (m1 m2 : PMatch) (a1 : ℕ),
      m1.application_id = some a1 →
      combinedScore c r m1 = combinedScore c r m2 →
      7/10 < combinedScore c r m1 →
      find_matching_application c r [m1, m2] = some a1) := by
  constructor
  · intro c r ms a hfind
    obtain ⟨hmono, hub, hcases⟩ := bestMatchFold_spec c r ms 0 none
    unfold find_matching_application at hfind
    rcases hcases with ⟨_, h2⟩ | ⟨m, hm, h1, h2, h3⟩
    · rw [hfind] at h2; exact absurd h2 (Option.some_ne_none a)
    · refine ⟨m, hm, by rw [← h1, hfind], h3, ?_⟩
      intro m' hm'
      by_cases hgt : 7/10 < combinedScore c r m'
      · have := hub m' hm' hgt
        rwa [h2] at this
      · exact le_trans (not_lt.mp hgt) (le_of_lt h3)
  · intro c r m1 m2 a1 hid heq hgt
    have h0 : (0:ℚ) < combinedScore c r m1 := lt_trans (by norm_num) hgt
    unfold find_matching_application
    simp only [bestMatchFold]
    rw [if_pos ⟨h0, hgt⟩, if_neg (fun hc => absurd (heq ▸ hc.1) (lt_irrefl _)), hid]

/-- Witness for C8 (amended) at the concrete tie pair. -/
theorem claim_C8_amended_witness :
    find_matching_application "acme".toList "swe".toList
      [tieMatchFirst, tieMatchSecond] = some 5 ∧
    ∃ m ∈ [tieMatchFirst, tieMatchSecond], m.application_id = some 5 ∧
      7/10 < combinedScore "acme".toList "swe".toList m ∧
      ∀ m' ∈ [tieMatchFirst, tieMatchSecond],
        combinedScore "acme".toList "swe".toList m' ≤
          combinedScore "acme".toList "swe".toList m := by
  have hgt : 7/10 < combinedScore "acme".toList "swe".toList tieMatchFirst := by
    rw [combined_tie_first]; norm_num
  have hfind := claim_C8_amended.2 "acme".toList "swe".toList
    tieMatchFirst tieMatchSecond 5 rfl combined_tie_second.symm hgt
  exact ⟨hfind, claim_C8_amended.1 "acme".toList "swe".toList _ 5 hfind⟩

/-- C10 (confirmed).  `similarity` applied to the empty string and any string
(in either argument order, both empty included) returns `0.9` through the
substring-containment branch — Python `"" in s` is `True` — so the
empty-word-set guard returning `0.0` is never reached. -/
theorem claim_C10_empty_string (s : PyStr) :
    similarity [] s = 9/10 ∧ similarity s [] = 9/10 := by
  constructor
  · apply similarity_substring
    rw [show pyLower ([] : PyStr) = [] from rfl, pySubstrB_nil]
    simp
  · apply similarity_substring
    rw [show pyLower ([] : PyStr) = [] from rfl, pySubstrB_nil]
    simp

/-! ## The batch pipeline (src/Main/main.py)

`process_messages` (lines 571–762) classifies each Gmail message, applies a
subject-keyword fallback, validates required fields, embeds the text once
and dispatches on the extracted status, writing SQLAlchemy rows and Pinecone
vectors.  The LLM call, the embedding call and the vector-store similarity
ranking are external collaborators and appear as per-message outcomes /
oracle parameters. -/

/-- The JSON object produced by `llm_classify_extract` (lines 350–442).  The
prompt's schema always emits every key, with `null` for unknown fields; we
model a JSON `null` (and a missing key) as `none` and a JSON string as
`some`.  `status` is the classification label. -/
structure Extraction where
  status : String
  company_name : Option PyStr
  role : Option PyStr
  date : Option PyStr
  interview_round : Option PyStr
  location : Option PyStr
  job_id : Option PyStr
deriving DecidableEq

/-- Python truthiness of an optional text field (`extraction.get(k)`):
`None` and the empty string are falsy. -/
def pyTruthy : Option PyStr → Bool
  | none => false
  | some s => !s.isEmpty

/-- One Gmail message as `process_messages` consumes it: the subject header,
the result of `extract_email_body` (`none` for no/empty body), and the
outcomes of the two external calls made for it — `llm_classify_extract` and
`create_embedding` — which, after the retry decorator exhausts its attempts,
either return a value or let the exception escape (`Except.error`).
The embedding itself is opaque and modelled as a token consumed by the
ranking oracle. -/
structure GMsg where
  subject : PyStr
  body : Option PyStr
  classification : Except String Extraction
  embedding : Except String ℕ

/-- A row of `applications` as written by `insert_application`
(lines 526–536). -/
structure AppRow where
  application_id : ℕ
  user_email : String
  company_name : PyStr
  position_title : PyStr
  application_date : Option ℕ
deriving DecidableEq

/-- A row of `rejections` (primary key `application_id`), as written by the
`rejected` branch (lines 665–672). -/
structure RejRow where
  application_id : ℕ
  company_name : PyStr
  position_title : PyStr
  rejection_date : Option ℕ
deriving DecidableEq

/-- A row of `interviews` as written by the `interview` branch
(lines 699–707).  The table's surrogate autoincrement `id` is the list
position; `interview_link`, `deadline_date` and `completed` are never set by
`process_messages` and are omitted. -/
structure IntRow where
  application_id : ℕ
  company_name : PyStr
  position_title : PyStr
  round : Option PyStr
  invitation_date : Option ℕ
deriving DecidableEq

/-- A row of `offers` as written by the `offer` branch (lines 734–741).
`salary_comp`, `deadline_to_accept` and `accepted_or_declined` are never set
by `process_messages` and are omitted. -/
structure OfferRow where
  application_id : ℕ
  company_name : PyStr
  position_title : PyStr
  offer_date : Option ℕ
  location : Option PyStr
deriving DecidableEq

/-- The metadata dictionary passed to `pinecone_upsert` (lines 539–560);
`pinecone_upsert` drops `None` values, so optional fields stay `Option`.
`application_status` is set only by the `applied` branch. -/
structure PineRec where
  user_email : String
  application_id : Option ℕ
  application_status : Option String
  status : String
  company_name : PyStr
  role : PyStr
  interview_round : Option PyStr
  location : Option PyStr
  job_id : Option PyStr
deriving DecidableEq

/-- The mutable state touched by `process_messages`: the four SQLAlchemy
tables, the autoincrement counter (SQLAlchemy ids start at 1), and the
Pinecone index as a map from namespace to stored records. -/
structure MainState where
  applications : List AppRow
  interviews : List IntRow
  rejections : List RejRow
  offers : List OfferRow
  nextAppId : ℕ
  pine : String → List PineRec

/-- The empty database and empty index. -/
def mainInit : MainState :=
  { applications := [], interviews := [], rejections := [], offers := []
    nextAppId := 1, pine := fun _ => [] }

/-- The environment of one `process_messages` run: the user, and the three
external collaborators — the vector-store similarity ranking (given the
query embedding token and the stored records, their ranked order), the
subject regex `to ([A-Z][\w\s&.-]+)` of the heuristic fallback, and
`parse_date_safe` (which delegates to `datetime` / `dateutil`). -/
structure MainCtx where
  user_email : String
  rank : ℕ → List PineRec → List PineRec
  inferCompany : PyStr → Option PyStr
  parseDate : PyStr → Option ℕ

/-- `pinecone_upsert` (lines 539–560): the vector id embeds a fresh random
component, so an upsert always inserts a new record into the namespace. -/
def pinecone_upsert (s : MainState) (ns : String) (rec : PineRec) : MainState :=
  { s with pine := fun n => if n = ns then s.pine n ++ [rec] else s.pine n }

/-- `search_pinecone` (lines 563–565): query one namespace with
`top_k=3` (the default — no caller overrides it) and the server-side filter
`{"user_email": {"$eq": user_email}}`; the ranking of the filtered records
by vector similarity is the external oracle. -/
def search_pinecone (ctx : MainCtx) (s : MainState) (ns : String) (emb : ℕ) :
    List PineRec :=
  (ctx.rank emb ((s.pine ns).filter (fun rec => rec.user_email = ctx.user_email))).take 3

/-- `res.matches[0].metadata.get("application_id") if res.matches and
res.matches[0].metadata else None` — the head candidate's application id.
Stored application ids come from an autoincrement column starting at 1, so
Python truthiness of the id coincides with `Option.isSome`. -/
def headAppId : List PineRec → Option ℕ
  | [] => none
  | rec :: _ => rec.application_id

/-- `insert_application` (lines 526–536): add an `applications` row from the
extraction and return it. -/
def insert_application (ctx : MainCtx) (s : MainState) (e : Extraction) :
    AppRow × MainState :=
  let app : AppRow :=
    { application_id := s.nextAppId
      user_email := ctx.user_email
      company_name := e.company_name.getD []
      position_title := e.role.getD []
      application_date := e.date.bind ctx.parseDate }
  (app, { s with applications := s.applications ++ [app], nextAppId := s.nextAppId + 1 })

/-- The four subject keywords of the heuristic fallback (lines 608–615). -/
def heuristicKeywords : List PyStr :=
  ["thank you for applying".toList,
   "thank you for your interest in".toList,
   "application received".toList,
   "thank you for your application".toList]

/-- The heuristic fallback (lines 606–625): a message classified
`"None of These"` whose lowercased subject contains one of the keywords is
re-labelled `applied`; if the extraction has no truthy company name, the
subject regex may supply one. -/
def applyHeuristic (ctx : MainCtx) (subject : PyStr) (e : Extraction) : Extraction :=
  if e.status = "None of These"
      && heuristicKeywords.any (fun kw => pySubstrB kw (pyLower subject)) then
    let company :=
      if pyTruthy e.company_name then e.company_name
      else
        match ctx.inferCompany subject with
        | some c => some c
        | none => e.company_name
    { e with status := "applied", company_name := company }
  else e

/-- `all(extraction.get(k) for k in ["company_name", "role", "date",
"status"])` (lines 632–634). -/
def requiredOk (e : Extraction) : Bool :=
  pyTruthy e.company_name && pyTruthy e.role && pyTruthy e.date && !e.status.isEmpty

/-- `session.merge(rej)` on the `rejections` table, whose primary key is
`application_id`: update the existing row in place, or insert. -/
def mergeRejRow (tbl : List RejRow) (r : RejRow) : List RejRow :=
  if tbl.any (fun x => x.application_id = r.application_id) then
    tbl.map (fun x => if x.application_id = r.application_id then r else x)
  else tbl ++ [r]

/-- The `offer` branch's match search (lines 723–727): namespaces `"offer"`,
then `"interview"`, then `"applications"`, chained with Python `or` (stored
ids are ≥ 1, hence truthy iff present). -/
def offerSearchChain (ctx : MainCtx) (s : MainState) (emb : ℕ) : Option ℕ :=
  (headAppId (search_pinecone ctx s "offer" emb)).orElse fun _ =>
    (headAppId (search_pinecone ctx s "interview" emb)).orElse fun _ =>
      headAppId (search_pinecone ctx s "applications" emb)

/-- Resolve a found match id or insert a new Application (the
`if match_id: ... else: insert_application(...)` pattern shared by the
`rejected`, `interview` and `offer` branches). -/
def resolveAppId (ctx : MainCtx) (s : MainState) (e : Extraction) :
    Option ℕ → ℕ × MainState
  | some a => (a, s)
  | none =>
    let (app, s') := insert_application ctx s e
    (app.application_id, s')

/-- The `interviews` row built by the `interview` branch (lines 699–705).
The source reads `extraction.get("interview_round", "Unknown")`; the LLM
schema always includes the key (with `null` when unknown), so the
`"Unknown"` default for an absent key is dead code and a JSON `null` arrives
here as `none`. -/
def mkIntRow (ctx : MainCtx) (e : Extraction) (app_id : ℕ) : IntRow :=
  { application_id := app_id
    company_name := e.company_name.getD []
    position_title := e.role.getD []
    round := e.interview_round
    invitation_date := e.date.bind ctx.parseDate }

/-- The Pinecone metadata shared by all four upserts of `process_messages`
(`interview_round` only in the `interview` branch, `application_status` only
in the `applied` branch). -/
def mkPineRec (ctx : MainCtx) (e : Extraction) (app_id : ℕ) (status : String)
    (appStatus : Option String) (round : Option PyStr) : PineRec :=
  { user_email := ctx.user_email
    application_id := some app_id
    application_status := appStatus
    status := status
    company_name := e.company_name.getD []
    role := e.role.getD []
    interview_round := round
    location := e.location
    job_id := e.job_id }

/-- The status dispatch of the `process_messages` loop body
(lines 639–753), after classification, validation and embedding have
succeeded.  None of these branches raises, so the result is a plain state
(the model treats the Pinecone upserts as succeeding; an upsert failure is
outside the claims considered here). -/
def processStatus (ctx : MainCtx) (s : MainState) (e : Extraction) (emb : ℕ) :
    MainState :=
  if e.status = "applied" then
    let (app, s1) := insert_application ctx s e
    pinecone_upsert s1 "applications"
      (mkPineRec ctx e app.application_id "applied" (some "applied") none)
  else if e.status = "rejected" then
    let match_id := headAppId (search_pinecone ctx s "applications" emb)
    let (app_id, s1) := resolveAppId ctx s e match_id
    let rej : RejRow :=
      { application_id := app_id
        company_name := e.company_name.getD []
        position_title := e.role.getD []
        rejection_date := e.date.bind ctx.parseDate }
    let s2 := { s1 with rejections := mergeRejRow s1.rejections rej }
    pinecone_upsert s2 "rejection" (mkPineRec ctx e app_id "rejected" none none)
  else if e.status = "interview" then
    let m1 := headAppId (search_pinecone ctx s "interview" emb)
    let match_id :=
      match m1 with
      | some a => some a
      | none => headAppId (search_pinecone ctx s "applications" emb)
    let (app_id, s1) := resolveAppId ctx s e match_id
    let s2 := { s1 with interviews := s1.interviews ++ [mkIntRow ctx e app_id] }
    pinecone_upsert s2 "interview"
      (mkPineRec ctx e app_id "interview" none e.interview_round)
  else if e.status = "offer" then
    let match_id := offerSearchChain ctx s emb
    let (app_id, s1) := resolveAppId ctx s e match_id
    let offer : OfferRow :=
      { application_id := app_id
        company_name := e.company_name.getD []
        position_title := e.role.getD []
        offer_date := e.date.bind ctx.parseDate
        location := e.location }
    let s2 := { s1 with offers := s1.offers ++ [offer] }
    pinecone_upsert s2 "offer" (mkPineRec ctx e app_id "offer" none none)
  else s

/-- One iteration of the `for idx, msg in enumerate(messages, 1)` loop of
`process_messages` (lines 582–753): skip empty bodies, classify (letting an
escaped exception abort — there is no `try` around the loop body), apply the
subject heuristic, skip `"None of These"` and ill-formed extractions, embed
once (again letting an escaped exception abort), then dispatch on status. -/
def processMsg (ctx : MainCtx) (s : MainState) (msg : GMsg) :
    Except String MainState :=
  if !pyTruthy msg.body then .ok s
  else
    match msg.classification with
    | .error err => .error err
    | .ok extraction0 =>
      let extraction := applyHeuristic ctx msg.subject extraction0
      if extraction.status = "None of These" then .ok s
      else if !requiredOk extraction then .ok s
      else
        match msg.embedding with
        | .error err => .error err
        | .ok embedding => .ok (processStatus ctx s extraction embedding)

/-- `process_messages` over the (already fetched and sorted) message list:
the loop body has no exception handler, so a per-message error aborts the
whole run. -/
def process_messages (ctx : MainCtx) (s : MainState) :
    List GMsg → Except String MainState
  | [] => .ok s
  | msg :: msgs =>
    match processMsg ctx s msg with
    | .error err => .error err
    | .ok s' => process_messages ctx s' msgs

/-! ## Service-layer upserts (src/app/services/db_service.py) -/

/-- A row of the Flask `offers` table as filled by `create_offer`
(db_service.py lines 225–274). -/
structure OfferD where
  application_id : ℕ
  company_name : PyStr
  position_title : PyStr
  offer_date : ℕ
  salary_comp : Option PyStr
  location : Option PyStr
  deadline_to_accept : Option ℕ
  accepted_or_declined : Bool
deriving DecidableEq

/-- `create_offer` (lines 225–274): if an Offer row for `application_id`
already exists it is returned **unchanged** (no field is updated); otherwise
the new row is inserted. -/
def create_offer (tbl : List OfferD) (o : OfferD) : List OfferD :=
  if tbl.any (fun x => x.application_id = o.application_id) then tbl
  else tbl ++ [o]

/-- A row of the Flask `interviews` table as filled by `create_interview`
(db_service.py lines 171–223). -/
structure IntD where
  application_id : ℕ
  company_name : PyStr
  position_title : PyStr
  round : PyStr
  invitation_date : ℕ
  interview_link : Option PyStr
  deadline_date : Option ℕ
  completed : Bool
deriving DecidableEq

/-- `create_interview` (lines 171–223): if an Interview row with the same
`(application_id, round)` already exists it is returned **unchanged**
(the invitation date is not updated); otherwise the new row is inserted. -/
def create_interview (tbl : List IntD) (i : IntD) : List IntD :=
  if tbl.any (fun x => x.application_id = i.application_id ∧ x.round = i.round) then tbl
  else tbl ++ [i]

/-! ## The Flask pipeline (src/app/services/email_parser.py)

`process_user_emails` fetches and sorts a user's emails and runs
`process_email` on each inside a `try/except` that logs and continues
(lines 204–215).  `process_email` itself catches every exception
(lines 286–290) and each service call it makes catches its own
(`classify_and_extract_email` returns `None` on any internal error,
openai_service.py lines 174–176), so the per-email step is total. -/

/-- A row of the Flask `applications` table as written by
`process_application` (email_parser.py lines 292–387). -/
structure FAppRow where
  application_id : ℕ
  user_email : String
  company_name : PyStr
  position_title : PyStr
  application_date : ℕ
  location : Option PyStr
  job_id : Option PyStr
deriving DecidableEq

/-- The metadata of an application vector written by
`generate_and_upsert_application` (pinecone_service.py lines 207–256); the
`type` key is the constant `'application'`. -/
structure FMeta where
  application_id : ℕ
  company_name : PyStr
  position_title : PyStr
  application_date : ℕ
deriving DecidableEq

/-- The state touched by the Flask pipeline's persisting branch: the
`applications` table, its autoincrement counter, and the Pinecone default
namespace as an id-keyed store (ids are the deterministic
`f"application_{application_id}"`). -/
structure FlaskState where
  applications : List FAppRow
  nextAppId : ℕ
  vectors : List (String × FMeta)

/-- The empty Flask-side state. -/
def flaskInit : FlaskState := { applications := [], nextAppId := 1, vectors := [] }

/-- The Flask pipeline's external collaborators: the user, the two-format
`datetime.strptime` date parse, `datetime.now().date()` for its fallback,
and whether the embedding call of `generate_and_upsert_application`
succeeds (on failure the vector write is skipped and the row kept —
degraded mode). -/
structure FlaskCtx where
  user_email : String
  parseDmy : PyStr → Option ℕ
  today : ℕ
  embedOk : Bool

/-- `upsert_vector` (pinecone_service.py lines 134–168) under the
deterministic vector id: replace the record with that id or insert it. -/
def upsertVec (vs : List (String × FMeta)) (id : String) (meta : FMeta) :
    List (String × FMeta) :=
  if vs.any (fun p => p.1 = id) then vs.map (fun p => if p.1 = id then (id, meta) else p)
  else vs ++ [(id, meta)]

/-- The date conversion of `process_application` (lines 334–345): parse with
the two `strptime` formats, falling back to `datetime.now().date()`. -/
def parseDateOrToday (ctx : FlaskCtx) : Option PyStr → ℕ
  | none => ctx.today
  | some d =>
    match ctx.parseDmy d with
    | some x => x
    | none => ctx.today

/-- `process_application` (email_parser.py lines 292–387): validate company
name, role and status, insert an `applications` row, and upsert its vector
under id `application_{id}` when the embedding succeeds. -/
def process_application (ctx : FlaskCtx) (s : FlaskState) (e : Extraction) :
    FlaskState :=
  if !pyTruthy e.company_name || !pyTruthy e.role then s
  else if e.status ≠ "applied" then s
  else
    let app : FAppRow :=
      { application_id := s.nextAppId
        user_email := ctx.user_email
        company_name := e.company_name.getD []
        position_title := e.role.getD []
        application_date := parseDateOrToday ctx e.date
        location := e.location
        job_id := e.job_id }
    let s1 : FlaskState :=
      { s with applications := s.applications ++ [app], nextAppId := s.nextAppId + 1 }
    if ctx.embedOk then
      { s1 with vectors :=
          (upsertVec s1.vectors ("application_" ++ toString app.application_id)
            { application_id := app.application_id
              company_name := app.company_name
              position_title := app.position_title
              application_date := app.application_date }) }
    else s1

/-- `process_rejection` (email_parser.py lines 389–460).  On a match it
assigns `application.status`, `application.rejection_date` and
`application.rejection_reason`; none of these is a mapped column of the
`Application` model (app/models/models.py lines 22–40), so they are
transient Python attributes and `commit()` persists nothing; no `Rejection`
row is ever constructed.  The persistent state is unchanged. -/
def process_rejection (_ctx : FlaskCtx) (s : FlaskState) (_e : Extraction) :
    FlaskState := s

/-- `process_interview` (email_parser.py lines 462–578).  It constructs
`Interview(application_id=…, interview_date=…, interview_type=…,
interview_round=…, location=…)`, but `interview_date`, `interview_type`,
`interview_round` and `location` are not columns of the `Interview` model
(models.py lines 56–70), so the declarative constructor raises `TypeError`
inside the function's own `try`, which logs and returns — nothing is
persisted. -/
def process_interview (_ctx : FlaskCtx) (s : FlaskState) (_e : Extraction) :
    FlaskState := s

/-- `process_offer` (email_parser.py lines 580–675).  It constructs
`Offer(application_id=…, offer_date=…, salary=…, deadline=…)`, but `salary`
and `deadline` are not columns of the `Offer` model (models.py lines
73–87: `salary_comp`, `deadline_to_accept`), so the constructor raises
`TypeError` inside the function's own `try` — nothing is persisted. -/
def process_offer (_ctx : FlaskCtx) (s : FlaskState) (_e : Extraction) :
    FlaskState := s

/-- One email's classification outcome for the Flask pipeline:
`classify_and_extract_email` returns `None` both for a not-job-related email
(`"other"` classification) and on any internal error. -/
structure FlaskMsg where
  subject : PyStr
  classify : Option Extraction

/-- `process_email` (email_parser.py lines 239–290): return immediately when
classification yields `None`, otherwise dispatch on the extracted status
(an unrecognised status only logs). -/
def process_email (ctx : FlaskCtx) (s : FlaskState) (m : FlaskMsg) : FlaskState :=
  match m.classify with
  | none => s
  | some e =>
    if e.status = "applied" then process_application ctx s e
    else if e.status = "rejected" then process_rejection ctx s e
    else if e.status = "interview" then process_interview ctx s e
    else if e.status = "offer" then process_offer ctx s e
    else s

/-- The per-email loop of `process_user_emails` (lines 204–215): each email
is processed inside `try/except` clauses that log and `continue`, and the
per-email step is itself total, so the loop is a plain fold that never
aborts. -/
def flaskLoop (ctx : FlaskCtx) (s : FlaskState) : List FlaskMsg → FlaskState
  | [] => s
  | m :: ms => flaskLoop ctx (process_email ctx s m) ms

/-! ## Watermarks (src/Main/main.py `main`, email_parser.py `process_user_emails`) -/

/-- `int(datetime(2024, 8, 19, tzinfo=timezone.utc).timestamp())`, the
hard-coded fetch bound of `main` (main.py line 777; the adjacent comment
says "31 Aug 2024" but the code says Aug 19). -/
def mainCustomEnd : ℕ := 1724025600

/-- The watermark persisted by a successful `main` run (main.py lines
774–789): `current_ts = min(now_at_start, custom_end)` is computed before
fetching and written by `update_parse_timestamp` only after
`process_messages` finishes. -/
def mainRunWatermark (now_ts : ℕ) : ℕ := min now_ts mainCustomEnd

/-- The watermark persisted by `process_user_emails` (email_parser.py lines
114–116, 174–187, 217–235): `system_start_time` is captured when the
function begins; a first-time run always persists it, an incremental run
persists it only when at least one email was fetched. -/
def flaskRunWatermark (start_date system_start : ℕ) (emails_parsed : Bool)
    (numEmails : ℕ) : ℕ :=
  if !emails_parsed then system_start
  else if numEmails ≠ 0 then system_start
  else start_date

/-! ## Concrete fixtures for the pipeline claims -/

/-- Oracles for concrete runs: the ranking returns the stored order, the
subject regex finds nothing, dates parse to day 0. -/
def oracleCtx : MainCtx :=
  { user_email := "u@example.com", rank := fun _ l => l,
    inferCompany := fun _ => none, parseDate := fun _ => some 0 }

/-- A classified `offer` event for Acme / SWE. -/
def offerExtr : Extraction :=
  { status := "offer", company_name := some "acme".toList, role := some "swe".toList,
    date := some "2024-02-01".toList, interview_round := none,
    location := some "nyc".toList, job_id := none }

/-- A message carrying `offerExtr`, with both external calls succeeding. -/
def offerMsg : GMsg :=
  { subject := "offer letter".toList, body := some "x".toList,
    classification := .ok offerExtr, embedding := .ok 0 }

/-- A classified `interview` event for Acme / SWE, round OA. -/
def intExtr : Extraction :=
  { status := "interview", company_name := some "acme".toList, role := some "swe".toList,
    date := some "2024-01-10".toList, interview_round := some "OA".toList,
    location := none, job_id := none }

/-- A message carrying `intExtr`. -/
def intMsg : GMsg :=
  { subject := "interview invitation".toList, body := some "x".toList,
    classification := .ok intExtr, embedding := .ok 0 }

/-- An extraction the LLM labelled `"None of These"` that nevertheless
carries truthy company/role/date fields. -/
def noneExtr : Extraction :=
  { status := "None of These", company_name := some "Cisco".toList,
    role := some "SWE".toList, date := some "2024-01-01".toList,
    interview_round := none, location := none, job_id := none }

/-- A `"None of These"`-classified message whose subject contains the
heuristic keyword `"thank you for applying"`. -/
def c5Msg : GMsg :=
  { subject := "Thank you for applying to Cisco".toList, body := some "x".toList,
    classification := .ok noneExtr, embedding := .ok 0 }

/-- A `"None of These"`-classified message whose subject contains no
heuristic keyword. -/
def c5PlainMsg : GMsg :=
  { subject := "hello".toList, body := some "x".toList,
    classification := .ok noneExtr, embedding := .ok 0 }

/-- A message whose classification call raises (retries exhausted). -/
def badMsg : GMsg :=
  { subject := "x".toList, body := some "x".toList,
    classification := .error "OpenAI API error", embedding := .ok 0 }

/-- A stored `offer`-namespace record whose text is unrelated to the Acme /
SWE offer event (combined lexical score 0). -/
def c7OfferRec : PineRec :=
  { user_email := "u@example.com", application_id := some 1,
    application_status := none, status := "offer",
    company_name := "zzz corp".toList, role := "qqq".toList,
    interview_round := none, location := none, job_id := none }

/-- A stored `interview`-namespace record phrased identically to the Acme /
SWE offer event (combined lexical score 0.9). -/
def c7IntRec : PineRec :=
  { user_email := "u@example.com", application_id := some 2,
    application_status := none, status := "interview",
    company_name := "acme".toList, role := "swe".toList,
    interview_round := some "OA".toList, location := none, job_id := none }

/-- A state whose `offer` namespace holds only the unrelated record and
whose `interview` namespace holds the exact-match record. -/
def c7State : MainState :=
  { mainInit with
    applications :=
      [{ application_id := 1, user_email := "u@example.com",
         company_name := "zzz corp".toList, position_title := "qqq".toList,
         application_date := some 0 },
       { application_id := 2, user_email := "u@example.com",
         company_name := "acme".toList, position_title := "swe".toList,
         application_date := some 0 }]
    nextAppId := 3
    pine := fun ns =>
      if ns = "offer" then [c7OfferRec]
      else if ns = "interview" then [c7IntRec]
      else [] }

/-- The `find_matching_application` candidate corresponding to
`c7OfferRec`. -/
def c7OfferCand : PMatch := ⟨some 1, "zzz corp".toList, "qqq".toList, 0⟩

/-- The `find_matching_application` candidate corresponding to
`c7IntRec`. -/
def c7IntCand : PMatch := ⟨some 2, "acme".toList, "swe".toList, 0⟩

/-- A stored `interview`-namespace record for application 7, used to drive
the matched-interview scenario. -/
def c3IntRec : PineRec :=
  { user_email := "u@example.com", application_id := some 7,
    application_status := none, status := "interview",
    company_name := "acme".toList, role := "swe".toList,
    interview_round := some "OA".toList, location := none, job_id := none }

/-- A state whose `interview` namespace already holds `c3IntRec`. -/
def c3State : MainState :=
  { mainInit with
    applications :=
      [{ application_id := 7, user_email := "u@example.com",
         company_name := "acme".toList, position_title := "swe".toList,
         application_date := some 0 }]
    nextAppId := 8
    pine := fun ns => if ns = "interview" then [c3IntRec] else [] }

/-- Flask-side oracles for concrete runs. -/
def flaskCtx0 : FlaskCtx :=
  { user_email := "u@example.com", parseDmy := fun _ => some 0,
    today := 0, embedOk := true }

/-- A Flask email whose classification returned `None`. -/
def flaskNoneMsg : FlaskMsg := { subject := "hello".toList, classify := none }

/-! ## Lemmas about the `rejections` merge -/

/-- The replacement map of `session.merge` preserves the primary key. -/
lemma replace_id (r x : RejRow) :
    (if x.application_id = r.application_id then r else x).application_id
      = x.application_id := by
  by_cases h : x.application_id = r.application_id
  · simp [h]
  · simp [h]

/-- `session.merge` preserves primary-key uniqueness of the table. -/
lemma mergeRejRow_pairwise (tbl : List RejRow) (r : RejRow)
    (h : tbl.Pairwise (fun a b => a.application_id ≠ b.application_id)) :
    (mergeRejRow tbl r).Pairwise
      (fun a b => a.application_id ≠ b.application_id) := by
  unfold mergeRejRow
  by_cases hany : tbl.any (fun x => x.application_id = r.application_id) = true
  · rw [if_pos hany]
    refine h.map _ ?_
    intro a b hab
    rw [replace_id, replace_id]
    exact hab
  · rw [if_neg hany]
    rw [List.pairwise_append]
    refine ⟨h, List.pairwise_singleton _ _, ?_⟩
    intro a ha b hb
    rw [List.mem_singleton] at hb
    subst hb
    intro heq
    exact hany (List.any_eq_true.mpr ⟨a, ha, by simp [heq]⟩)

/-- After replacing the row keyed `r.application_id` in a unique-key table
that contains that key, the rows with that key are exactly `[r]`. -/
lemma filter_map_replace (r : RejRow) :
    ∀ (tbl : List RejRow),
      tbl.Pairwise (fun a b => a.application_id ≠ b.application_id) →
      (∃ x ∈ tbl, x.application_id = r.application_id) →
      ((tbl.map (fun x => if x.application_id = r.application_id then r else x)).filter
        (fun x => x.application_id = r.application_id)) = [r]
  | [] => by
    rintro _ ⟨x, hx, _⟩
    exact absurd hx (List.not_mem_nil x)
  | x :: xs => by
    intro h hex
    rw [List.pairwise_cons] at h
    obtain ⟨hx, hxs⟩ := h
    by_cases hxid : x.application_id = r.application_id
    · have hrest :
          ((xs.map (fun y => if y.application_id = r.application_id then r else y)).filter
            (fun y => y.application_id = r.application_id)) = [] := by
        rw [List.filter_eq_nil_iff]
        intro y hy
        obtain ⟨z, hz, hzy⟩ := List.mem_map.mp hy
        have hzne : z.application_id ≠ r.application_id := by
          intro hzz
          exact (hx z hz) (hxid.trans hzz.symm)
        rw [if_neg hzne] at hzy
        subst hzy
        simp [hzne]
      simp only [List.map_cons, if_pos hxid, List.filter_cons]
      rw [hrest]
      simp
    · have hex' : ∃ z ∈ xs, z.application_id = r.application_id := by
        rcases hex with ⟨z, hz, hzid⟩
        rcases List.mem_cons.mp hz with hh | hh
        · exact absurd (hh ▸ hzid) hxid
        · exact ⟨z, hh, hzid⟩
      simp only [List.map_cons, if_neg hxid, List.filter_cons]
      rw [filter_map_replace r xs hxs hex']
      simp [hxid]

/-- In a table with unique primary keys, after `session.merge` of `r` the
rows keyed `r.application_id` are exactly `[r]`. -/
lemma mergeRejRow_filter (tbl : List RejRow) (r : RejRow)
    (h : tbl.Pairwise (fun a b => a.application_id ≠ b.application_id)) :
    ((mergeRejRow tbl r).filter (fun x => x.application_id = r.application_id)) = [r] := by
  unfold mergeRejRow
  by_cases hany : tbl.any (fun x => x.application_id = r.application_id) = true
  · rw [if_pos hany]
    obtain ⟨a, ha, haq⟩ := List.any_eq_true.mp hany
    exact filter_map_replace r tbl h ⟨a, ha, by simpa using haq⟩
  · rw [if_neg hany]
    rw [List.filter_append]
    have h1 : tbl.filter (fun x => x.application_id = r.application_id) = [] := by
      rw [List.filter_eq_nil_iff]
      intro x hxmem hxp
      exact hany (List.any_eq_true.mpr ⟨x, hxmem, hxp⟩)
    rw [h1]
    simp

/-! ## Rows for the service-layer witnesses -/

/-- A first rejection event's row for application 1. -/
def rej1 : RejRow := ⟨1, "acme".toList, "swe".toList, some 10⟩

/-- A second rejection event's row for application 1 (later date). -/
def rej2 : RejRow := ⟨1, "acme".toList, "swe".toList, some 20⟩

/-- A first offer event's row for application 1. -/
def offD1 : OfferD := ⟨1, "acme".toList, "swe".toList, 10, none, none, none, false⟩

/-- A second offer event's row for application 1 (later date, new salary). -/
def offD2 : OfferD :=
  ⟨1, "acme".toList, "swe".toList, 20, some "100k".toList, none, none, false⟩

/-- A first interview event's row for application 1, round OA. -/
def intD1 : IntD := ⟨1, "acme".toList, "swe".toList, "OA".toList, 10, none, none, false⟩

/-- A second interview event's row for the same application and round
(later invitation date). -/
def intD2 : IntD := ⟨1, "acme".toList, "swe".toList, "OA".toList, 20, none, none, false⟩

/-! ## Claims C2, C3, C5, C7, C9, C4 -/

/-- C2 (counterexample).  Two identical `offer` events against the same
Application leave **two** Offer rows, not one: the batch pipeline's offer
branch does `session.add` on a surrogate-keyed row (main.py lines 734–742),
never an upsert.  The run below processes the same offer event twice; both
rows reference application 1 (the second event matches the first via the
`offer` namespace), and `offers` ends with 2 rows. -/
theorem claim_C2_counterexample :
    (process_messages oracleCtx mainInit [offerMsg, offerMsg]).map
      (fun s => (s.offers.length, s.applications.length)) = .ok (2, 1) ∧
    (process_messages oracleCtx mainInit [offerMsg, offerMsg]).map
      (fun s => s.offers.map (fun o => o.application_id)) = .ok [1, 1] :=
  ⟨rfl, rfl⟩

/-- C2 (amended).  Re-applying a `rejected` event against the same
Application is idempotent with last-write-wins (the batch pipeline uses
`session.merge` on the `application_id` primary key): the rows keyed by the
event's application end as exactly the latest event's row.  An `offer`
event, by contrast, **appends** a new Offer row on every processing in the
batch pipeline (two identical events leave two rows), while the service
layer's `create_offer` keeps a single row but preserves the **first**
event's fields (create-if-absent, no update). -/
theorem claim_C2_amended :
    (∀ (tbl : List RejRow) (r r' : RejRow),
      tbl.Pairwise (fun a b => a.application_id ≠ b.application_id) →
      ((mergeRejRow (mergeRejRow tbl r) r').filter
        (fun x => x.application_id = r'.application_id)) = [r']) ∧
    (∀ (ctx : MainCtx) (s : MainState) (msg : GMsg) (e : Extraction) (emb : ℕ),
      pyTruthy msg.body = true → msg.classification = .ok e → e.status = "offer" →
      requiredOk e = true → msg.embedding = .ok emb →
      (processMsg ctx s msg).map (fun t => t.offers.length) =
        .ok (s.offers.length + 1)) ∧
    (∀ (tbl : List OfferD) (o o' : OfferD), o'.application_id = o.application_id →
      create_offer (create_offer tbl o) o' = create_offer tbl o) := by
  refine ⟨?_, ?_, ?_⟩
  · intro tbl r r' h
    exact mergeRejRow_filter _ r' (mergeRejRow_pairwise tbl r h)
  · intro ctx s msg e emb hbody hcls hst hreq hemb
    have hheur : applyHeuristic ctx msg.subject e = e := by
      unfold applyHeuristic
      rw [hst]
      simp
    unfold processMsg
    rw [hbody, hcls, hemb]
    simp only [Bool.not_true, Bool.false_eq_true, if_false]
    rw [hheur, hst, hreq]
    rw [if_neg (show ¬(("offer" : String) = "None of These") from by decide)]
    simp only [Bool.not_true, Bool.false_eq_true, if_false]
    unfold processStatus
    rw [hst]
    rw [if_neg (show ¬(("offer" : String) = "applied") from by decide),
      if_neg (show ¬(("offer" : String) = "rejected") from by decide),
      if_neg (show ¬(("offer" : String) = "interview") from by decide),
      if_pos (show ("offer" : String) = "offer" from rfl)]
    cases h : offerSearchChain ctx s emb with
    | none => simp [h, resolveAppId, insert_application, pinecone_upsert, Except.map]
    | some a => simp [h, resolveAppId, pinecone_upsert, Except.map]
  · intro tbl o o' hid
    unfold create_offer
    by_cases hany : tbl.any (fun x => x.application_id = o.application_id) = true
    · have hany' : tbl.any (fun x => x.application_id = o'.application_id) = true := by
        rw [hid]
        exact hany
      rw [if_pos hany, if_pos hany']
    · rw [if_neg hany]
      have happ : (tbl ++ [o]).any
          (fun x => x.application_id = o'.application_id) = true := by
        rw [List.any_append]
        simp [hid]
      rw [if_pos happ]

/-- Witness for C2 (amended) at concrete rows and the concrete offer run. -/
theorem claim_C2_amended_witness :
    ((mergeRejRow (mergeRejRow [] rej1) rej2).filter
      (fun x => x.application_id = rej2.application_id)) = [rej2] ∧
    (processMsg oracleCtx mainInit offerMsg).map (fun t => t.offers.length) =
      .ok (mainInit.offers.length + 1) ∧
    create_offer (create_offer [] offD1) offD2 = create_offer [] offD1 :=
  ⟨claim_C2_amended.1 [] rej1 rej2 List.Pairwise.nil,
   claim_C2_amended.2.1 oracleCtx mainInit offerMsg offerExtr 0 rfl rfl rfl (by decide) rfl,
   claim_C2_amended.2.2 [] offD1 offD2 rfl⟩

/-- C3 (counterexample).  Two `interview` events with identical company,
role and round label leave **two** Interview rows attached to one
Application: the batch pipeline's interview branch always does
`session.add` of a fresh surrogate-keyed row (main.py lines 699–707) — no
upsert keyed by `(application_id, round_label)` exists there. -/
theorem claim_C3_counterexample :
    (process_messages oracleCtx mainInit [intMsg, intMsg]).map
      (fun s => (s.interviews.length, s.applications.length)) = .ok (2, 1) ∧
    (process_messages oracleCtx mainInit [intMsg, intMsg]).map
      (fun s => s.interviews.map (fun i => i.application_id)) = .ok [1, 1] :=
  ⟨rfl, rfl⟩

/-- C3 (amended).  A subsequent `interview` event that matches an existing
record in the `interview` namespace reuses that `application_id` (no
duplicate Application is created) but **inserts an additional** Interview
row rather than updating the existing one; the service layer's
`create_interview` does key by `(application_id, round)` but returns the
existing row **unchanged** (create-if-absent, no update). -/
theorem claim_C3_amended :
    (∀ (ctx : MainCtx) (s : MainState) (msg : GMsg) (e : Extraction) (emb a : ℕ),
      pyTruthy msg.body = true → msg.classification = .ok e →
      e.status = "interview" → requiredOk e = true → msg.embedding = .ok emb →
      headAppId (search_pinecone ctx s "interview" emb) = some a →
      (processMsg ctx s msg).map (fun t => (t.applications, t.interviews)) =
        .ok (s.applications, s.interviews ++ [mkIntRow ctx e a])) ∧
    (∀ (tbl : List IntD) (i i' : IntD),
      i'.application_id = i.application_id → i'.round = i.round →
      create_interview (create_interview tbl i) i' = create_interview tbl i) := by
  constructor
  · intro ctx s msg e emb a hbody hcls hst hreq hemb hmatch
    have hheur : applyHeuristic ctx msg.subject e = e := by
      unfold applyHeuristic
      rw [hst]
      simp
    unfold processMsg
    rw [hbody, hcls, hemb]
    simp only [Bool.not_true, Bool.false_eq_true, if_false]
    rw [hheur, hst, hreq]
    rw [if_neg (show ¬(("interview" : String) = "None of These") from by decide)]
    simp only [Bool.not_true, Bool.false_eq_true, if_false]
    unfold processStatus
    rw [hst]
    rw [if_neg (show ¬(("interview" : String) = "applied") from by decide),
      if_neg (show ¬(("interview" : String) = "rejected") from by decide),
      if_pos (show ("interview" : String) = "interview" from rfl)]
    rw [hmatch]
    simp [resolveAppId, pinecone_upsert, Except.map]
  · intro tbl i i' hid hrnd
    unfold create_interview
    by_cases hany : tbl.any
        (fun x => x.application_id = i.application_id ∧ x.round = i.round) = true
    · have hany' : tbl.any
          (fun x => x.application_id = i'.application_id ∧ x.round = i'.round) = true := by
        rw [hid, hrnd]
        exact hany
      rw [if_pos hany, if_pos hany']
    · rw [if_neg hany]
      have happ : (tbl ++ [i]).any
          (fun x => x.application_id = i'.application_id ∧ x.round = i'.round) = true := by
        rw [List.any_append]
        simp [hid, hrnd]
      rw [if_pos happ]

/-- Witness for C3 (amended): a matched interview event against `c3State`
appends one row for application 7, and `create_interview` is
first-write-wins at concrete rows. -/
theorem claim_C3_amended_witness :
    (processMsg oracleCtx c3State intMsg).map (fun t => (t.applications, t.interviews)) =
      .ok (c3State.applications, c3State.interviews ++ [mkIntRow oracleCtx intExtr 7]) ∧
    create_interview (create_interview [] intD1) intD2 = create_interview [] intD1 :=
  ⟨claim_C3_amended.1 oracleCtx c3State intMsg intExtr 0 7 rfl rfl rfl (by decide) rfl rfl,
   claim_C3_amended.2 [] intD1 intD2 rfl rfl⟩

/-- C5 (counterexample).  An email whose classification result is
`"None of These"` can still produce relational and vector writes: the batch
pipeline's heuristic fallback (main.py lines 606–625) re-labels it
`applied` when the subject contains an application-confirmation keyword, and
the extraction's fields then pass validation.  Processing `c5Msg` (LLM said
`"None of These"`, subject "Thank you for applying to Cisco") inserts one
Application row and one `applications`-namespace vector. -/
theorem claim_C5_counterexample :
    c5Msg.classification = .ok noneExtr ∧ noneExtr.status = "None of These" ∧
    (processMsg oracleCtx mainInit c5Msg).map
      (fun s => (s.applications.length, (s.pine "applications").length)) = .ok (1, 1) :=
  ⟨rfl, rfl, rfl⟩

/-- C5 (amended).  A `"None of These"` classification produces zero
relational and zero vector writes **unless** (batch pipeline only) the
subject contains one of the four application-confirmation keywords, in
which case the event is re-labelled `applied` and may write.  The Flask
pipeline returns before any write whenever classification yields `None`. -/
theorem claim_C5_amended :
    (∀ (ctx : MainCtx) (s : MainState) (msg : GMsg) (e : Extraction),
      msg.classification = .ok e → e.status = "None of These" →
      heuristicKeywords.all (fun kw => !pySubstrB kw (pyLower msg.subject)) = true →
      processMsg ctx s msg = .ok s) ∧
    (∀ (ctx : FlaskCtx) (s : FlaskState) (m : FlaskMsg),
      m.classify = none → process_email ctx s m = s) := by
  constructor
  · intro ctx s msg e hcls hst hall
    have hany : heuristicKeywords.any
        (fun kw => pySubstrB kw (pyLower msg.subject)) = false := by
      rw [List.any_eq_false]
      intro kw hkw
      have := List.all_eq_true.mp hall kw hkw
      simpa using this
    have hheur : applyHeuristic ctx msg.subject e = e := by
      unfold applyHeuristic
      rw [hst, hany]
      simp
    unfold processMsg
    cases hb : pyTruthy msg.body with
    | false => simp
    | true =>
      rw [hcls]
      simp only [Bool.not_true, Bool.false_eq_true, if_false]
      rw [hheur, hst, if_pos rfl]
  · intro ctx s m h
    unfold process_email
    rw [h]

/-- Witness for C5 (amended): the same `"None of These"` extraction with a
keyword-free subject writes nothing, and a `None` classification writes
nothing in the Flask pipeline. -/
theorem claim_C5_amended_witness :
    processMsg oracleCtx mainInit c5PlainMsg = .ok mainInit ∧
    process_email flaskCtx0 flaskInit flaskNoneMsg = flaskInit :=
  ⟨claim_C5_amended.1 oracleCtx mainInit c5PlainMsg noneExtr rfl rfl (by decide),
   claim_C5_amended.2 flaskCtx0 flaskInit flaskNoneMsg rfl⟩

/-- C7 (counterexample).  The batch pipeline's offer search takes the first
namespace whose top-ranked record carries an `application_id` — it applies
**no similarity threshold** (main.py lines 723–727, `search_chain`).  With
an `offer`-namespace record of combined lexical score `0 < 0.7` and an
`interview`-namespace record of score `0.9`, the offer still matches
application 1 from the `offer` namespace instead of skipping it for the
above-threshold interview candidate (application 2). -/
theorem claim_C7_counterexample :
    (processMsg oracleCtx c7State offerMsg).map
      (fun s => s.offers.map (fun o => o.application_id)) = .ok [1] ∧
    combinedScore "acme".toList "swe".toList c7OfferCand < 7/10 ∧
    7/10 < combinedScore "acme".toList "swe".toList c7IntCand := by
  refine ⟨rfl, ?_, ?_⟩
  · have h1 : similarity "acme".toList "zzz corp".toList = 0 := by
      rw [similarity_eq_specJaccard (by decide)]
      simp only [specJaccard]
      rw [if_neg (by decide),
        show ((pyWords (pyLower "acme".toList)).toFinset
          ∩ (pyWords (pyLower "zzz corp".toList)).toFinset).card = 0 from by decide]
      rw [Nat.cast_zero, zero_div]
    have h2 : similarity "swe".toList "qqq".toList = 0 := by
      rw [similarity_eq_specJaccard (by decide)]
      simp only [specJaccard]
      rw [if_neg (by decide),
        show ((pyWords (pyLower "swe".toList)).toFinset
          ∩ (pyWords (pyLower "qqq".toList)).toFinset).card = 0 from by decide]
      rw [Nat.cast_zero, zero_div]
    simp only [combinedScore, c7OfferCand]
    rw [show pyLower "acme".toList = "acme".toList from by decide,
      show pyLower "zzz corp".toList = "zzz corp".toList from by decide,
      show pyLower "swe".toList = "swe".toList from by decide,
      show pyLower "qqq".toList = "qqq".toList from by decide,
      h1, h2]
    norm_num
  · simp only [combinedScore, c7IntCand]
    rw [show pyLower "acme".toList = "acme".toList from by decide,
      show pyLower "swe".toList = "swe".toList from by decide,
      similarity_substring (by decide), similarity_substring (by decide)]
    norm_num

/-- C7 (amended).  The offer search queries the `offer`, `interview` and
`applications` namespaces **in that order**, each with `top_k = 3` (not 5)
filtered to the requesting user, and stops at the first namespace whose
top-ranked record carries an `application_id` — no acceptance threshold is
applied. -/
theorem claim_C7_amended :
    (∀ (ctx : MainCtx) (s : MainState) (emb a : ℕ),
      headAppId (search_pinecone ctx s "offer" emb) = some a →
      offerSearchChain ctx s emb = some a) ∧
    (∀ (ctx : MainCtx) (s : MainState) (emb a : ℕ),
      headAppId (search_pinecone ctx s "offer" emb) = none →
      headAppId (search_pinecone ctx s "interview" emb) = some a →
      offerSearchChain ctx s emb = some a) ∧
    (∀ (ctx : MainCtx) (s : MainState) (emb : ℕ),
      headAppId (search_pinecone ctx s "offer" emb) = none →
      headAppId (search_pinecone ctx s "interview" emb) = none →
      offerSearchChain ctx s emb =
        headAppId (search_pinecone ctx s "applications" emb)) ∧
    (∀ (ctx : MainCtx) (s : MainState) (ns : String) (emb : ℕ),
      (search_pinecone ctx s ns emb).length ≤ 3) ∧
    (∀ (ctx : MainCtx) (s : MainState) (ns : String) (emb : ℕ),
      (∀ (e : ℕ) (l : List PineRec), ∀ x ∈ ctx.rank e l, x ∈ l) →
      ∀ rec ∈ search_pinecone ctx s ns emb,
        rec.user_email = ctx.user_email) := by
  refine ⟨?_, ?_, ?_, ?_, ?_⟩
  · intro ctx s emb a h
    unfold offerSearchChain
    rw [h]
    rfl
  · intro ctx s emb a h1 h2
    unfold offerSearchChain
    rw [h1, h2]
    rfl
  · intro ctx s emb h1 h2
    unfold offerSearchChain
    rw [h1, h2]
    rfl
  · intro ctx s ns emb
    unfold search_pinecone
    exact List.length_take_le 3 _
  · intro ctx s ns emb hrank rec hmem
    unfold search_pinecone at hmem
    have hmem' := hrank emb _ rec (List.mem_of_mem_take hmem)
    exact of_decide_eq_true (List.mem_filter.mp hmem').2

/-- Witness for C7 (amended) at the concrete `c7State`. -/
theorem claim_C7_amended_witness :
    offerSearchChain oracleCtx c7State 0 = some 1 ∧
    (search_pinecone oracleCtx c7State "offer" 0).length ≤ 3 ∧
    ∀ rec ∈ search_pinecone oracleCtx c7State "offer" 0,
      rec.user_email = oracleCtx.user_email :=
  ⟨claim_C7_amended.1 oracleCtx c7State 0 1 rfl,
   claim_C7_amended.2.2.2.1 oracleCtx c7State "offer" 0,
   claim_C7_amended.2.2.2.2 oracleCtx c7State "offer" 0 (fun _ _ _ h => h)⟩

/-- C9 (counterexample).  The batch pipeline's per-message loop has no
exception handler: when the first message's classification call raises
(after retries), the whole run aborts and the second message — which alone
would have produced an Offer row — is never processed. -/
theorem claim_C9_counterexample :
    process_messages oracleCtx mainInit [badMsg, offerMsg] =
      .error "OpenAI API error" ∧
    (process_messages oracleCtx mainInit [offerMsg]).map
      (fun s => s.offers.length) = .ok 1 :=
  ⟨rfl, rfl⟩

/-- C9 (amended).  In the Flask pipeline per-email failures are absorbed
(classification failure yields `None` and the loop continues with the next
email), but in the batch pipeline an exception escaping any one message's
processing aborts the run for the remaining messages. -/
theorem claim_C9_amended :
    (∀ (ctx : MainCtx) (s : MainState) (msg : GMsg) (msgs : List GMsg)
        (err : String),
      processMsg ctx s msg = .error err →
      process_messages ctx s (msg :: msgs) = .error err) ∧
    (∀ (ctx : FlaskCtx) (s : FlaskState) (m : FlaskMsg) (ms : List FlaskMsg),
      m.classify = none →
      flaskLoop ctx s (m :: ms) = flaskLoop ctx s ms) := by
  constructor
  · intro ctx s msg msgs err h
    unfold process_messages
    rw [h]
  · intro ctx s m ms h
    have hstep : process_email ctx s m = s := by
      unfold process_email
      rw [h]
    show flaskLoop ctx (process_email ctx s m) ms = flaskLoop ctx s ms
    rw [hstep]

/-- Witness for C9 (amended): the concrete failing message aborts the batch
run; the `None`-classified email is skipped by the Flask loop. -/
theorem claim_C9_amended_witness :
    process_messages oracleCtx mainInit [badMsg] = .error "OpenAI API error" ∧
    flaskLoop flaskCtx0 flaskInit [flaskNoneMsg] = flaskLoop flaskCtx0 flaskInit [] :=
  ⟨claim_C9_amended.1 oracleCtx mainInit badMsg [] "OpenAI API error" rfl,
   claim_C9_amended.2 flaskCtx0 flaskInit flaskNoneMsg [] rfl⟩

/-- C4 (counterexample).  A `main` run persists
`min(now_at_start, 2024-08-19)` as the watermark, so a pre-run watermark
past the hard-coded cutoff — reachable, since the Flask pipeline writes the
real run-start time into the same `email_parse_start_date` column — is
**regressed** to the cutoff: with pre-run watermark `1724025601`
(2024-08-19 00:00:01 UTC) and run start `1724112000` (2024-08-20), the
post-run watermark is `1724025600 < 1724025601`. -/
theorem claim_C4_counterexample :
    mainRunWatermark 1724112000 = 1724025600 ∧ 1724025600 < 1724025601 :=
  ⟨by decide, by decide⟩

/-- C4 (amended).  The watermark never advances past the "now" captured at
run start, and it is monotone provided the pre-run watermark does not
exceed `min(now_at_start, 2024-08-19)`; the Flask pipeline's watermark
(set to the run-start time on first runs and on non-empty incremental
runs, kept otherwise) is monotone whenever the pre-run watermark is at
most the run-start time. -/
theorem claim_C4_amended (w t : ℕ) (parsed : Bool) (n : ℕ)
    (h : w ≤ min t mainCustomEnd) :
    (w ≤ mainRunWatermark t ∧ mainRunWatermark t ≤ t) ∧
    (w ≤ flaskRunWatermark w t parsed n ∧ flaskRunWatermark w t parsed n ≤ t) := by
  have hwt : w ≤ t := le_trans h (min_le_left _ _)
  unfold mainRunWatermark flaskRunWatermark
  refine ⟨⟨h, min_le_left _ _⟩, ?_⟩
  split_ifs <;> omega

/-- Witness for C4 (amended) at a pre-cutoff watermark. -/
theorem claim_C4_amended_witness :
    5 ≤ min 10 mainCustomEnd ∧
    ((5 ≤ mainRunWatermark 10 ∧ mainRunWatermark 10 ≤ 10) ∧
     (5 ≤ flaskRunWatermark 5 10 true 0 ∧ flaskRunWatermark 5 10 true 0 ≤ 10)) :=
  ⟨by decide, claim_C4_amended 5 10 true 0 (by decide)⟩

end Jobify
